import Mathlib

set_option maxRecDepth 100000

/-!
Verification development for the hatty-ai-model repository.

This file gives a shallow embedding of the two core components of the
repository and proves properties of that embedding:

* `MultiLLMOrchestrator.generate`
  (src/apps/api/src/orchestrator/grok-chat.ts, lines 276-557): requirement
  analysis with fallback defaults, fan-out over the enabled model adapters,
  evaluation of the collected submissions with a judge call, and the final
  result record.  The embedding is parametrised over the outcome of every
  outbound network call (the analysis call, one call per enabled adapter in
  arrival order, and the judge call), since these are the only sources of
  nondeterminism; everything else in `generate` is deterministic and is
  translated directly.

* `PreviewDeployment.processCode` and its helpers `extractFileName`,
  `transformForBrowser`, `createIndexHtml`, `wrapInHtml`
  (src/unnamed/part_003, lines 71-374): the artifact extractor that turns a
  raw model reply into a mapping of file names to file contents.  The
  JavaScript regular expressions used there are embedded via a small
  backtracking matcher (`reMatch`) whose alternatives are ordered exactly as
  a JS engine orders them (leftmost position first, greedy/lazy priority,
  left alternative first), so the first element of the produced outcome list
  is the JS match.
-/

/-! ## String primitives

Character-list versions of the JavaScript string operations used by the
source (`String.prototype.includes`, `startsWith`, `endsWith`, `trim`).
-/

/-- Boolean list-prefix test; `isPre p s` is true when `p` is a prefix of `s`. -/
def isPre : List Char → List Char → Bool
  | [], _ => true
  | _ :: _, [] => false
  | a :: as, b :: bs => a == b && isPre as bs

/-- Boolean substring test on character lists: `hasSub p s` is true when `p`
occurs contiguously in `s`.  Mirrors `String.prototype.includes`. -/
def hasSub (pat : List Char) : List Char → Bool
  | [] => isPre pat []
  | c :: cs => isPre pat (c :: cs) || hasSub pat cs

/-- String wrapper for `hasSub`: `scont s p` is the JS `s.includes(p)`. -/
def scont (s pat : String) : Bool := hasSub pat.data s.data

/-- JS `s.startsWith(p)`. -/
def startsS (s pat : String) : Bool := isPre pat.data s.data

/-- JS `s.endsWith(p)`. -/
def endsS (s pat : String) : Bool := isPre pat.data.reverse s.data.reverse

/-- Whitespace as stripped by `String.prototype.trim` (ASCII relevant part). -/
def isWsChar (c : Char) : Bool :=
  c == ' ' || c == '\t' || c == '\n' || c == '\r' || c == '\x0b' || c == '\x0c'

/-- JS `s.trim()`. -/
def trimS (s : String) : String :=
  ⟨((s.data.dropWhile isWsChar).reverse.dropWhile isWsChar).reverse⟩

/-! ## Orchestrator data model

Shallow embedding of the records used by `MultiLLMOrchestrator.generate`.
A `Submission` is the record pushed into the `submissions` array by a
successful adapter call (grok-chat.ts lines 336-341 and the six analogous
blocks).  The outcome of each outbound call is an `Except Unit _`: `.error`
models a thrown/caught failure (timeout, transport error, non-success
response, undecodable JSON), `.ok` a call that returned and decoded.
-/

/-- One entry of the `submissions` array: model label, generated code,
rationale string and elapsed milliseconds. -/
structure Submission where
  model : String
  code : String
  reasoning : String
  executionTime : Nat
  deriving DecidableEq, Repr

instance : Inhabited Submission := ⟨⟨"", "", "", 0⟩⟩

/-- Decoded JSON of the requirement-analysis reply (grok-chat.ts lines
307-310).  `none` fields model absent (or `null`) JSON fields. -/
structure AnalysisReply where
  framework : Option String
  requirements : Option (List String)
  deriving DecidableEq, Repr

/-- One entry of the `scores` array of the judge reply. -/
structure ScoreEntry where
  model : Option String
  deriving DecidableEq, Repr

/-- Decoded JSON of the evaluation reply (grok-chat.ts lines 529-533).
`winner` is the `winner` field, `scores` the `scores` array; `none` models
an absent field. -/
structure JudgeReply where
  winner : Option String
  scores : Option (List ScoreEntry)
  deriving DecidableEq, Repr

/-- The run-fatal error of `generate`: the `throw new Error("No models were
able to generate code. ...")` at grok-chat.ts line 492. -/
inductive GenError where
  | noSubmissions
  deriving DecidableEq, Repr

/-- The record returned by `generate` (grok-chat.ts lines 545-556).  The
`framework` and `requirements` fields are the ones placed into
`executionDetails`. -/
structure GenOutput where
  code : String
  model : String
  score : ℚ
  models : List String
  framework : String
  requirements : List String
  deriving DecidableEq, Repr

/-- JavaScript `x || d` for an optional string field: absent (`none`) and the
empty string are falsy. -/
def jsOrStr (v : Option String) (d : String) : String :=
  match v with
  | none => d
  | some s => if s = "" then d else s

/-- Requirement-analysis step (grok-chat.ts lines 303-313): `framework` and
`requirements` start as `"react"` and `["basic functionality"]`; a decoded
reply overwrites them with `parsed.framework || "react"` and
`parsed.requirements || ["basic functionality"]`; a thrown error (failed
call or `JSON.parse`) leaves the defaults. -/
def analyzeOutcome (a : Except Unit AnalysisReply) : String × List String :=
  match a with
  | .error _ => ("react", ["basic functionality"])
  | .ok p => (jsOrStr p.framework "react", p.requirements.getD ["basic functionality"])

/-- Fan-out collection (grok-chat.ts lines 318-489): each element of `calls`
is one settled adapter promise, listed in arrival order; a successful call
pushed its `Submission`, a failed call was caught and pushed nothing. -/
def collectSubmissions : List (Except Unit Submission) → List Submission
  | [] => []
  | .ok s :: rest => s :: collectSubmissions rest
  | .error _ :: rest => collectSubmissions rest

/-- The `result.scores[0]?.model` access (grok-chat.ts line 533): when the
`scores` field is absent, indexing it throws (`.error`, caught by the
surrounding `try`); otherwise the first entry's `model` field (possibly
absent) is produced. -/
def scoresFirstModel (r : JudgeReply) : Except Unit (Option String) :=
  match r.scores with
  | none => .error ()
  | some es => .ok (es.head?.bind (·.model))

/-- The `result.winner || result.scores[0]?.model` expression (grok-chat.ts
line 533): an absent or empty `winner` field falls through to the first
score entry's model. -/
def winningModelName (r : JudgeReply) : Except Unit (Option String) :=
  match r.winner with
  | none => scoresFirstModel r
  | some w => if w = "" then scoresFirstModel r else .ok (some w)

/-- Evaluation of multiple submissions (grok-chat.ts lines 528-540): the
judge call is decoded, the winning model name is looked up among the
submissions, and any thrown error — failed call, undecodable JSON, or the
`scores[0]` access throwing — falls back to `submissions[0]`. -/
def pickWinner (subs : List Submission) (judge : Except Unit JudgeReply) : Submission :=
  match judge with
  | .error _ => subs.headI
  | .ok r =>
    match winningModelName r with
    | .error _ => subs.headI
    | .ok w =>
      match subs.find? (fun s => some s.model = w) with
      | some s => s
      | none => subs.headI

/-- The full `generate` run (grok-chat.ts lines 276-557), parametrised over
the outcome of the analysis call, of each adapter call in arrival order, and
of the judge call.  With zero collected submissions it throws
`noSubmissions`; with one submission it selects it without consulting the
judge; with several it runs `pickWinner`.  The returned `score` is the
literal `8.5` of line 548. -/
def generate (analysis : Except Unit AnalysisReply)
    (calls : List (Except Unit Submission))
    (judge : Except Unit JudgeReply) : Except GenError GenOutput :=
  let fr := analyzeOutcome analysis
  let submissions := collectSubmissions calls
  if submissions.isEmpty then .error .noSubmissions
  else
    let best := if 1 < submissions.length then pickWinner submissions judge
                else submissions.headI
    .ok { code := best.code
          model := best.model
          score := 8.5
          models := submissions.map (·.model)
          framework := fr.1
          requirements := fr.2 }

/-- Specification-side selection rule, modelled from the amended evaluator
fallback claim: the effective winner name is the `winner` field, or — when
that field is absent or empty — the model named by the first `scores` entry;
if no effective name exists, or it matches no submission, or the judge call
failed altogether, the first submission in arrival order is selected. -/
def selectSpec (subs : List Submission) (judge : Except Unit JudgeReply) : Submission :=
  match judge with
  | .error _ => subs.headI
  | .ok r =>
    let fallbackName : Option String := (r.scores.getD []).head?.bind (·.model)
    let name : Option String :=
      match r.winner with
      | none => fallbackName
      | some w => if w = "" then fallbackName else some w
    match name with
    | none => subs.headI
    | some w =>
      match subs.find? (fun s => s.model = w) with
      | some s => s
      | none => subs.headI

/-! ## Concrete run fragments used by witnesses and counterexamples -/

/-- Sample submission with the OpenAI adapter's constant metadata. -/
def subA : Submission :=
  { model := "OpenAI GPT-4o"
    code := "const a = 1;"
    reasoning := "Optimized for speed and reliability"
    executionTime := 120 }

/-- Sample submission with the Claude adapter's constant metadata. -/
def subB : Submission :=
  { model := "Claude 3.5 Sonnet"
    code := "const b = 2;"
    reasoning := "Excellent UI/UX design and code structure"
    executionTime := 150 }

/-- Judge reply whose `winner` field is absent while the first `scores`
entry names the second submission's model. -/
def judgeNoWinner : JudgeReply :=
  { winner := none, scores := some [{ model := some "Claude 3.5 Sonnet" }] }

/-! ## A small backtracking regular-expression matcher

The artifact extractor (src/unnamed/part_003) works by JavaScript regular
expressions.  Each pattern of the source is embedded as an `RE` term below;
`reMatch` enumerates the possible matches of an `RE` at one position in the
priority order a JS engine uses (greedy quantifier: longest first; lazy:
shortest first; alternation: left first), so the head of the outcome list is
the JS match at that position.  `findFirstFrom` then scans positions left to
right, which yields exactly the JS leftmost match, and `replaceRE` iterates
it from the end of each match, which is the semantics of `replace` with the
`g` flag.  All quantifiers in the source apply to single-character classes,
which is why `many`/`many1` range over character predicates.
-/

/-- JS `\w` (the sources are ASCII): letters, digits, underscore. -/
def isWordChar (c : Char) : Bool := c.isAlphanum || c == '_'

/-- JS `.` without the `s` flag: any character except a line terminator. -/
def isDotChar (c : Char) : Bool := c != '\n' && c != '\r'

/-- Case-insensitive list-prefix test, for the `i`-flagged patterns. -/
def isPreCI : List Char → List Char → Bool
  | [], _ => true
  | _ :: _, [] => false
  | a :: as, b :: bs => a.toLower == b.toLower && isPreCI as bs

/-- Syntax of the regular expressions used by src/unnamed/part_003. -/
inductive RE where
  | eps
  | str (t : List Char)
  | stri (t : List Char)
  | ch (p : Char → Bool)
  | seq (a b : RE)
  | alt (a b : RE)
  | opt (a : RE)
  | many (p : Char → Bool) (greedy : Bool)
  | many1 (p : Char → Bool) (greedy : Bool)
  | group (i : Nat) (a : RE)
  | look (a : RE)
  | wb

/-- Captured groups of one match: group index paired with captured text. -/
abbrev Caps := List (Nat × String)

/-- Character preceding the current position: last consumed, else the one
before the match start. -/
def prevOf (ip : Option Char) (rc : List Char) : Option Char :=
  match rc with
  | [] => ip
  | c :: _ => some c

/-- Word-character test on an optional character (string edges count as
non-word), for `\b`. -/
def isWordB (o : Option Char) : Bool :=
  match o with
  | none => false
  | some c => isWordChar c

/-- Splits of a maximal `p`-run: consumed-reversed-prefix and remainder, in
increasing consumption order. -/
def manySplits (p : Char → Bool) : List Char → List Char → List (List Char × List Char)
  | rc, [] => [(rc, [])]
  | rc, c :: cs => (rc, c :: cs) :: (if p c then manySplits p (c :: rc) cs else [])

/-- Outcomes of matching `r` at the start of `s`, in JS priority order.
Each outcome is (consumed text reversed, remainder, captures); `ip` is the
character just before the match start (for `\b`), `rc` the text consumed so
far inside the current match, `cp` the captures recorded so far. -/
def reMatch : RE → Option Char → List Char → List Char → Caps →
    List (List Char × List Char × Caps)
  | .eps, _, rc, s, cp => [(rc, s, cp)]
  | .str t, _, rc, s, cp =>
      if isPre t s then [(t.reverse ++ rc, s.drop t.length, cp)] else []
  | .stri t, _, rc, s, cp =>
      if isPreCI t s then [((s.take t.length).reverse ++ rc, s.drop t.length, cp)] else []
  | .ch p, _, rc, s, cp =>
      match s with
      | [] => []
      | c :: cs => if p c then [(c :: rc, cs, cp)] else []
  | .seq a b, ip, rc, s, cp =>
      (reMatch a ip rc s cp).flatMap fun o => reMatch b ip o.1 o.2.1 o.2.2
  | .alt a b, ip, rc, s, cp => reMatch a ip rc s cp ++ reMatch b ip rc s cp
  | .opt a, ip, rc, s, cp => reMatch a ip rc s cp ++ [(rc, s, cp)]
  | .many p g, _, rc, s, cp =>
      let sp := manySplits p rc s
      (if g then sp.reverse else sp).map fun o => (o.1, o.2, cp)
  | .many1 p g, _, rc, s, cp =>
      match s with
      | [] => []
      | c :: cs =>
        if p c then
          let sp := manySplits p (c :: rc) cs
          (if g then sp.reverse else sp).map fun o => (o.1, o.2, cp)
        else []
  | .group i a, ip, rc, s, cp =>
      (reMatch a (prevOf ip rc) [] s cp).map fun o =>
        (o.1 ++ rc, o.2.1, (i, ⟨o.1.reverse⟩) :: o.2.2)
  | .look a, ip, rc, s, cp =>
      if (reMatch a (prevOf ip rc) [] s cp).isEmpty then [] else [(rc, s, cp)]
  | .wb, ip, rc, s, cp =>
      if isWordB (prevOf ip rc) != isWordB s.head? then [(rc, s, cp)] else []

/-- Leftmost match of `r` in `s`: scans positions left to right, at each
position taking the head outcome of `reMatch`.  Returns the reversed text
before the match, the reversed matched text, the remainder, and the
captures.  `acc` accumulates the already-scanned (reversed) prefix and `ip`
the previous character. -/
def findFirstFrom (r : RE) (ip : Option Char) (acc s : List Char) :
    Option (List Char × List Char × List Char × Caps) :=
  match reMatch r ip [] s [] with
  | o :: _ => some (acc, o.1, o.2.1, o.2.2)
  | [] =>
    match s with
    | [] => none
    | c :: cs => findFirstFrom r (some c) (c :: acc) cs

/-- JS `s.match(re)` restricted to its captures: the captures of the
leftmost match, if any. -/
def matchRE (r : RE) (s : String) : Option Caps :=
  (findFirstFrom r none [] s.data).map fun o => o.2.2.2

/-- Value of capture group `i`, or `""` when absent. -/
def capGet (cp : Caps) (i : Nat) : String :=
  ((cp.find? (fun e => e.1 = i)).map (·.2)).getD ""

/-- Iterated replacement: JS `s.replace(re, f)` with the `g` flag.  Matching
continues in the original text after each match; the patterns of the source
never match the empty string, and an empty match stops the iteration
defensively. -/
def replaceGo (r : RE) (repl : Caps → String) :
    Nat → Option Char → List Char → List Char
  | 0, _, s => s
  | fuel + 1, ip, s =>
    match findFirstFrom r ip [] s with
    | none => s
    | some (acc, rc, rest, cp) =>
      match rc with
      | [] => s
      | c :: _ =>
        acc.reverse ++ (repl cp).data ++ replaceGo r repl fuel (some c) rest

/-- JS `s.replace(re, f)` with the `g` flag, on strings. -/
def replaceRE (r : RE) (repl : Caps → String) (s : String) : String :=
  ⟨replaceGo r repl (s.data.length + 1) none s.data⟩

/-- JS `s.replace(re, "")` with the `g` flag. -/
def stripRE (r : RE) (s : String) : String := replaceRE r (fun _ => "") s

/-- Literal pattern piece. -/
def rstr (s : String) : RE := .str s.data

/-- Case-insensitive literal pattern piece. -/
def rstri (s : String) : RE := .stri s.data

/-- Concatenation of pattern pieces. -/
def rseq (l : List RE) : RE := l.foldr .seq .eps

/-- The `['"]` character class. -/
def rquote : RE := .ch fun c => c == '\'' || c == '"'

/-- The `[^'"]` character class. -/
def isNotQuote (c : Char) : Bool := c != '\'' && c != '"'

/-- The `[A-Z]` character class. -/
def isUpperAZ (c : Char) : Bool := 'A' ≤ c && c ≤ 'Z'

/-! ## The regular expressions of src/unnamed/part_003

Each definition mirrors one pattern literal of the source; the original
pattern is quoted in the doc comment.
-/

/-- Pattern `/import\s+React[,\s]*(?:\{[^}]*\})?\s+from\s+['"]react['"]\s*;?/gi`
(line 233). -/
def reImportReact : RE :=
  rseq [rstri "import", .many1 isWsChar true, rstri "React",
    .many (fun c => c == ',' || isWsChar c) true,
    .opt (rseq [rstr "\x7b", .many (fun c => c != '\x7d') true, rstr "\x7d"]),
    .many1 isWsChar true, rstri "from", .many1 isWsChar true,
    rquote, rstri "react", rquote, .many isWsChar true, .opt (rstr ";")]

/-- Pattern `/import\s+ReactDOM\s+from\s+['"]react-dom['"]\s*;?/gi` (line 234). -/
def reImportReactDom : RE :=
  rseq [rstri "import", .many1 isWsChar true, rstri "ReactDOM", .many1 isWsChar true,
    rstri "from", .many1 isWsChar true, rquote, rstri "react-dom", rquote,
    .many isWsChar true, .opt (rstr ";")]

/-- Pattern `/import\s+\{[^}]*\}\s+from\s+['"]react['"]\s*;?/gi` (line 235). -/
def reImportReactBraces : RE :=
  rseq [rstri "import", .many1 isWsChar true, rstr "\x7b",
    .many (fun c => c != '\x7d') true, rstr "\x7d", .many1 isWsChar true,
    rstri "from", .many1 isWsChar true, rquote, rstri "react", rquote,
    .many isWsChar true, .opt (rstr ";")]

/-- Pattern `/import\s+.*\s+from\s+['"]react-dom\/client['"]\s*;?/gi` (line 236). -/
def reImportReactDomClient : RE :=
  rseq [rstri "import", .many1 isWsChar true, .many isDotChar true,
    .many1 isWsChar true, rstri "from", .many1 isWsChar true, rquote,
    rstri "react-dom/client", rquote, .many isWsChar true, .opt (rstr ";")]

/-- Pattern `/import\s+['"]\.\/[^'"]*\.css['"]\s*;?/gi` (line 238). -/
def reImportRelCss : RE :=
  rseq [rstri "import", .many1 isWsChar true, rquote, rstr "./",
    .many isNotQuote true, rstri ".css", rquote, .many isWsChar true, .opt (rstr ";")]

/-- Pattern `/import\s+['"][^'"]*\.css['"]\s*;?/gi` (line 239). -/
def reImportAnyCss : RE :=
  rseq [rstri "import", .many1 isWsChar true, rquote,
    .many isNotQuote true, rstri ".css", rquote, .many isWsChar true, .opt (rstr ";")]

/-- Pattern
`/import\s+(?:type\s+)?\{[^}]*\}\s+from\s+['"][^'"]*types[^'"]*['"]\s*;?/gi`
(line 241). -/
def reImportTypesPath : RE :=
  rseq [rstri "import", .many1 isWsChar true,
    .opt (rseq [rstri "type", .many1 isWsChar true]),
    rstr "\x7b", .many (fun c => c != '\x7d') true, rstr "\x7d",
    .many1 isWsChar true, rstri "from", .many1 isWsChar true, rquote,
    .many isNotQuote true, rstri "types", .many isNotQuote true, rquote,
    .many isWsChar true, .opt (rstr ";")]

/-- Pattern `/import\s+type\s+\{[^}]*\}\s+from\s+['"][^'"]*['"]\s*;?/gi` (line 242). -/
def reImportTypeOnly : RE :=
  rseq [rstri "import", .many1 isWsChar true, rstri "type", .many1 isWsChar true,
    rstr "\x7b", .many (fun c => c != '\x7d') true, rstr "\x7d",
    .many1 isWsChar true, rstri "from", .many1 isWsChar true, rquote,
    .many isNotQuote true, rquote, .many isWsChar true, .opt (rstr ";")]

/-- Pattern `/import\s+.*\s+from\s+['"]\.\.?\/[^'"]*['"]\s*;?/gi` (line 244). -/
def reImportRelative : RE :=
  rseq [rstri "import", .many1 isWsChar true, .many isDotChar true,
    .many1 isWsChar true, rstri "from", .many1 isWsChar true, rquote,
    rstr ".", .opt (rstr "."), rstr "/", .many isNotQuote true, rquote,
    .many isWsChar true, .opt (rstr ";")]

/-- Pattern `/ReactDOM\.render\s*\([^)]*\);?/g` (line 250). -/
def reRenderCall : RE :=
  rseq [rstr "ReactDOM.render", .many isWsChar true, rstr "(",
    .many (fun c => c != ')') true, rstr ")", .opt (rstr ";")]

/-- Pattern `/const\s+root\s*=\s*ReactDOM\.createRoot[^;]*;?/g` (line 252). -/
def reCreateRootDecl : RE :=
  rseq [rstr "const", .many1 isWsChar true, rstr "root", .many isWsChar true,
    rstr "=", .many isWsChar true, rstr "ReactDOM.createRoot",
    .many (fun c => c != ';') true, .opt (rstr ";")]

/-- Pattern `/root\.render\s*\([^)]*\);?/g` (line 253). -/
def reRootRender : RE :=
  rseq [rstr "root.render", .many isWsChar true, rstr "(",
    .many (fun c => c != ')') true, rstr ")", .opt (rstr ";")]

/-- Pattern `/document\.getElementById\s*\(\s*['"]root['"]\s*\)/g` (line 255). -/
def reGetRootElem : RE :=
  rseq [rstr "document.getElementById", .many isWsChar true, rstr "(",
    .many isWsChar true, rquote, rstr "root", rquote, .many isWsChar true, rstr ")"]

/-- Pattern `/\bNAME\b/g` for the seven hook renames (lines 260-266). -/
def reHook (name : String) : RE := rseq [.wb, rstr name, .wb]

/-- Pattern `/<[A-Z][^>]*>/g` (line 270). -/
def reGenericArgs : RE :=
  rseq [rstr "<", .ch isUpperAZ, .many (fun c => c != '>') true, rstr ">"]

/-- Pattern `/:\s*[A-Z][a-zA-Z0-9\[\]]+(?=\s*[=,)\{])/g` (line 272). -/
def reTypeAnn : RE :=
  rseq [rstr ":", .many isWsChar true, .ch isUpperAZ,
    .many1 (fun c => c.isAlphanum || c == '[' || c == ']') true,
    .look (rseq [.many isWsChar true,
      .ch (fun c => c == '=' || c == ',' || c == ')' || c == '\x7b')])]

/-- Pattern `/:\s*React\.FC\s*/g` (line 274). -/
def reReactFC : RE :=
  rseq [rstr ":", .many isWsChar true, rstr "React.FC", .many isWsChar true]

/-- Pattern `/interface\s+\w+\s*\{[^}]*\}/gs` (line 276). -/
def reInterfaceDecl : RE :=
  rseq [rstr "interface", .many1 isWsChar true, .many1 isWordChar true,
    .many isWsChar true, rstr "\x7b", .many (fun c => c != '\x7d') true, rstr "\x7d"]

/-- Pattern `/type\s+\w+\s*=\s*\{[^}]*\}/gs` (line 278). -/
def reTypeDecl : RE :=
  rseq [rstr "type", .many1 isWsChar true, .many1 isWordChar true,
    .many isWsChar true, rstr "=", .many isWsChar true,
    rstr "\x7b", .many (fun c => c != '\x7d') true, rstr "\x7d"]

/-- Pattern `/\n{3,}/g` (line 281). -/
def reBlankLines : RE := rseq [rstr "\n\n\n", .many (fun c => c == '\n') true]

/-- Pattern `/export\s+default\s+(\w+)\s*;?/g` (line 298). -/
def reExportDefault : RE :=
  rseq [rstr "export", .many1 isWsChar true, rstr "default", .many1 isWsChar true,
    .group 1 (.many1 isWordChar true), .many isWsChar true, .opt (rstr ";")]

/-- Pattern `/export\s+default\s+function\s+(\w+)/g` (line 303). -/
def reExportDefaultFn : RE :=
  rseq [rstr "export", .many1 isWsChar true, rstr "default", .many1 isWsChar true,
    rstr "function", .many1 isWsChar true, .group 1 (.many1 isWordChar true)]

/-- Pattern `/function\s+(\w+)\s*\(/` (lines 307, 308, 315).  The source
first tests `/function\s+\w+\s*\(/` (line 307) and then extracts the name
with this pattern; the two differ only by the capture group, which does not
change what matches, so both tests are embedded as one leftmost-match
lookup. -/
def reFnName : RE :=
  rseq [rstr "function", .many1 isWsChar true, .group 1 (.many1 isWordChar true),
    .many isWsChar true, rstr "("]

/-- Pattern `/function\s+(TodoApp|App)\s*\(/` (line 156). -/
def reMainComponent : RE :=
  rseq [rstr "function", .many1 isWsChar true,
    .group 1 (.alt (rstr "TodoApp") (rstr "App")), .many isWsChar true, rstr "("]

/-- Pattern `/\/\/\s*([^\/\n]+\.[a-zA-Z]+)/` (line 208). -/
def reNameLineComment : RE :=
  rseq [rstr "//", .many isWsChar true,
    .group 1 (rseq [.many1 (fun c => c != '/' && c != '\n') true, rstr ".",
      .many1 Char.isAlpha true])]

/-- Pattern `/\/\*\s*([^\/\n]+\.[a-zA-Z]+)/` (line 209). -/
def reNameBlockComment : RE :=
  rseq [rstr "/*", .many isWsChar true,
    .group 1 (rseq [.many1 (fun c => c != '/' && c != '\n') true, rstr ".",
      .many1 Char.isAlpha true])]

/-- Pattern `/<!--\s*([^-\n]+\.[a-zA-Z]+)/` (line 210). -/
def reNameHtmlComment : RE :=
  rseq [rstr "<!--", .many isWsChar true,
    .group 1 (rseq [.many1 (fun c => c != '-' && c != '\n') true, rstr ".",
      .many1 Char.isAlpha true])]

/-- Pattern `/```(?:[\w]+)?\n([\s\S]*?)```/g` (line 77). -/
def reCodeBlock : RE :=
  rseq [rstr "```", .opt (.many1 isWordChar true), rstr "\n",
    .group 1 (.many (fun _ => true) false), rstr "```"]

/-! ## The artifact extractor (PreviewDeployment.processCode)

The produced file set is an association list in insertion order with unique
keys, mirroring a JS object: `upsert` overwrites an existing key in place
and appends a new one at the end.
-/

/-- Insert-or-overwrite on the file map, mirroring `files[name] = content`. -/
def upsert : List (String × String) → String → String → List (String × String)
  | [], k, v => [(k, v)]
  | (k', v') :: rest, k, v =>
    if k' = k then (k, v) :: rest else (k', v') :: upsert rest k v

/-- Lookup on the file map, mirroring `files[name]`. -/
def flook : List (String × String) → String → Option String
  | [], _ => none
  | (k', v) :: rest, k => if k' = k then some v else flook rest k

/-- Lookup with a default, mirroring `files[name] || d`. -/
def flookD (fs : List (String × String)) (k d : String) : String := (flook fs k).getD d

/-- One fenced-block match: the text before the match
(`code.substring(0, match.index)`, which for later blocks includes the
earlier blocks) and the raw capture `match[1]`. -/
structure Block where
  before : String
  raw : String
  deriving DecidableEq, Repr

/-- Iterated leftmost matching of the fenced-block pattern, mirroring
`[...code.matchAll(codeBlockRegex)]` (line 78): `acc` is the reversed text
already scanned, and scanning resumes after each closing fence. -/
def blocksGo : Nat → List Char → List Char → List Block
  | 0, _, _ => []
  | fuel + 1, acc, s =>
    match findFirstFrom reCodeBlock none acc s with
    | none => []
    | some (acc', rc, rest, cp) =>
      { before := ⟨acc'.reverse⟩, raw := capGet cp 1 } :: blocksGo fuel (rc ++ acc') rest

/-- All fenced-block matches of the raw text, in order. -/
def extractBlocks (code : String) : List Block :=
  blocksGo (code.data.length + 1) [] code.data

/-- Filename extraction (lines 205-227): the three comment patterns are
tried on the text before the block, then filename guesses on the block
content; `""` means no name found. -/
def extractFileName (comment code : String) : String :=
  match matchRE reNameLineComment comment with
  | some cp => trimS (capGet cp 1)
  | none =>
  match matchRE reNameBlockComment comment with
  | some cp => trimS (capGet cp 1)
  | none =>
  match matchRE reNameHtmlComment comment with
  | some cp => trimS (capGet cp 1)
  | none =>
  if scont code "<!DOCTYPE html>" then "index.html"
  else if scont code "import React" then "App.tsx"
  else if scont code "export default function" then "App.tsx"
  else if scont code "@import" || scont code "body \x7b" then "styles.css"
  else ""

/-- The fixed placeholder module substituted when the transformed text is
too short or has neither a function declaration nor an arrow function
(lines 285-291). -/
def placeholderModule : String :=
  "function App() \x7b\n  return React.createElement(\x27div\x27, \x7b className: \x27p-8\x27 \x7d,\n    React.createElement(\x27h1\x27, \x7b className: \x27text-2xl font-bold mb-4\x27 \x7d, \x27Todo App\x27),\n    React.createElement(\x27p\x27, null, \x27Component could not be loaded. Please try generating again.\x27)\n  );\n\x7d\nwindow.App = App;"

/-- Cleanup phase of `transformForBrowser` (lines 229-281): strip
package/stylesheet/relative imports, conditionally remove mount
boilerplate, qualify hooks, erase type annotations lexically, collapse
blank lines and trim. -/
def transformCleanup (code : String) : String :=
  let t := stripRE reImportReact code
  let t := stripRE reImportReactDom t
  let t := stripRE reImportReactBraces t
  let t := stripRE reImportReactDomClient t
  let t := stripRE reImportRelCss t
  let t := stripRE reImportAnyCss t
  let t := stripRE reImportTypesPath t
  let t := stripRE reImportTypeOnly t
  let t := stripRE reImportRelative t
  let t :=
    if scont t "ReactDOM.render" || scont t "createRoot" then
      let t := stripRE reRenderCall t
      let t := stripRE reCreateRootDecl t
      let t := stripRE reRootRender t
      stripRE reGetRootElem t
    else t
  let t := replaceRE (reHook "useState") (fun _ => "React.useState") t
  let t := replaceRE (reHook "useEffect") (fun _ => "React.useEffect") t
  let t := replaceRE (reHook "useRef") (fun _ => "React.useRef") t
  let t := replaceRE (reHook "useCallback") (fun _ => "React.useCallback") t
  let t := replaceRE (reHook "useMemo") (fun _ => "React.useMemo") t
  let t := replaceRE (reHook "useContext") (fun _ => "React.useContext") t
  let t := replaceRE (reHook "useReducer") (fun _ => "React.useReducer") t
  let t := stripRE reGenericArgs t
  let t := stripRE reTypeAnn t
  let t := replaceRE reReactFC (fun _ => " ") t
  let t := stripRE reInterfaceDecl t
  let t := stripRE reTypeDecl t
  let t := replaceRE reBlankLines (fun _ => "\n\n") t
  trimS t

/-- Shared tail of both export branches (lines 307-311 and 314-318): look
for a function declaration and, unless `window.App` is already mentioned,
append a `window.App` binding for the first declared function name. -/
def bindFn (t : String) : String :=
  match matchRE reFnName t with
  | some cp =>
    if scont t "window.App" then t else t ++ "\nwindow.App = " ++ capGet cp 1 ++ ";"
  | none => t

/-- Finishing phase of `transformForBrowser` (lines 283-321): substitute the
placeholder for degenerate results, rewrite default exports into a
`window.App` binding, and append a binding for the first declared function
when none is present. -/
def transformFinish (t : String) : String :=
  if t.length < 20 || (!scont t "function" && !scont t "=>") then placeholderModule
  else if scont t "export default" then
    bindFn (replaceRE reExportDefaultFn (fun cp => "function " ++ capGet cp 1)
      (replaceRE reExportDefault (fun cp => "window.App = " ++ capGet cp 1 ++ ";") t))
  else bindFn t

/-- Browser-compatibility transform of one module block
(`transformForBrowser`, lines 229-322). -/
def transformForBrowser (code : String) : String :=
  transformFinish (transformCleanup code)

/-- The synthesized entry document (`createIndexHtml`, lines 324-354). -/
def createIndexHtml (title : String) : String :=
  "<!DOCTYPE html>\n<html lang=\"en\">\n<head>\n    <meta charset=\"UTF-8\">\n    <meta name=\"viewport\" content=\"width=device-width, initial-scale=1.0\">\n    <title>" ++ title ++ "</title>\n    <script src=\"https://unpkg.com/react@18/umd/react.development.js\"></script>\n    <script src=\"https://unpkg.com/react-dom@18/umd/react-dom.development.js\"></script>\n    <script src=\"https://unpkg.com/@babel/standalone/babel.min.js\"></script>\n    <script src=\"https://cdn.tailwindcss.com\"></script>\n    <link rel=\"stylesheet\" href=\"./styles.css\">\n</head>\n<body>\n    <div id=\"root\"></div>\n    <script type=\"text/babel\" src=\"./App.tsx\" data-type=\"module\"></script>\n    <script type=\"text/babel\">\n      // Wait for App component to be loaded, then render it\n      const renderApp = () => \x7b\n        // Get the default export from the loaded App module\n        const App = window.App || (() => React.createElement(\x27div\x27, null, \x27Loading...\x27));\n        const root = ReactDOM.createRoot(document.getElementById(\x27root\x27));\n        root.render(React.createElement(App));\n      \x7d;\n\n      // Give the App.tsx time to load and execute\n      setTimeout(renderApp, 100);\n    </script>\n</body>\n</html>"

/-- The plain-content wrapper document (`wrapInHtml`, lines 356-374). -/
def wrapInHtml (content : String) : String :=
  if scont content "<html" then content
  else
    "<!DOCTYPE html>\n<html lang=\"en\">\n<head>\n    <meta charset=\"UTF-8\">\n    <meta name=\"viewport\" content=\"width=device-width, initial-scale=1.0\">\n    <title>Generated App</title>\n    <script src=\"https://cdn.tailwindcss.com\"></script>\n    <style>\n        body \x7b margin: 0; padding: 20px; font-family: system-ui, -apple-system, sans-serif; \x7d\n    </style>\n</head>\n<body>\n    " ++ content ++ "\n</body>\n</html>"

/-- Filename inference for one block (lines 95-129): the extracted filename
if any, else the content-signature cascade; `none` models the final
`return` that discards the block. -/
def inferName (before content : String) (idx : Nat) : Option String :=
  let fn := extractFileName before content
  if fn ≠ "" then some fn
  else if startsS content "\x7b" && scont content "\"name\"" && scont content "\"version\"" then
    some "package.json"
  else if scont content "<!DOCTYPE html>" || scont content "<html" then some "index.html"
  else if scont content "import React" || scont content "from \x27react\x27" then
    if scont content "ReactDOM.render" || scont content "createRoot" then some "src/index.tsx"
    else if idx = 0 then some "src/App.tsx"
    else some ("src/Component" ++ toString idx ++ ".tsx")
  else if scont content "\x7b" && (scont content ":" && scont content ";")
      && !scont content "function" then
    some "styles.css"
  else if scont content "export" || scont content "function" || scont content "const" then
    some ("src/code" ++ toString idx ++ ".tsx")
  else none

/-- Module-file name test of lines 132, 168: `.tsx` or `.jsx` suffix. -/
def isModuleName (n : String) : Bool := endsS n ".tsx" || endsS n ".jsx"

/-- What the per-block body of the `forEach` (lines 82-151) does with one
block: nothing, merge the transformed content into `App.tsx`, or save the
content under its name. -/
inductive BAction where
  | drop
  | merge (t : String)
  | save (name content : String)
  deriving DecidableEq, Repr

/-- Classification of one block, with its `forEach` index: empty content
and mount-boilerplate module blocks are dropped, module-named blocks are
transformed for merging, anything else is saved verbatim. -/
def classifyBlock (idx : Nat) (b : Block) : BAction :=
  let c := trimS b.raw
  if c = "" then .drop
  else
    match inferName b.before c idx with
    | none => .drop
    | some name =>
      if isModuleName name then
        if scont c "ReactDOM.render" || scont c "createRoot" then .drop
        else .merge (transformForBrowser c)
      else .save name c

/-- Effect of one block on the file map (lines 131-150): merging appends
the transformed content plus a blank line to the accumulated `App.tsx`. -/
def applyAction (fs : List (String × String)) : BAction → List (String × String)
  | .drop => fs
  | .merge t => upsert fs "App.tsx" (flookD fs "App.tsx" "" ++ t ++ "\n\n")
  | .save n c => upsert fs n c

/-- One step of the `forEach` over the enumerated blocks. -/
def blockStep (fs : List (String × String)) (ib : Nat × Block) : List (String × String) :=
  applyAction fs (classifyBlock ib.1 ib.2)

/-- The main-component pass (lines 154-165): if the combined `App.tsx`
matches `/function\s+(TodoApp|App)\s*\(/` and does not yet mention
`window.App`, append a `window.App` binding for the matched name. -/
def postMain (fs : List (String × String)) : List (String × String) :=
  match flook fs "App.tsx" with
  | none => fs
  | some app =>
    if app = "" then fs
    else
      match matchRE reMainComponent app with
      | none => fs
      | some cp =>
        if scont app "window.App" then fs
        else upsert fs "App.tsx" (app ++ "\nwindow.App = " ++ capGet cp 1 ++ ";\n")

/-- The entry-document pass (lines 167-180): when any `.tsx`/`.jsx` file
exists, an `index.html` lacking the React and Babel script markers (or
absent entirely) is replaced by the synthesized entry document. -/
def postHtml (fs : List (String × String)) : List (String × String) :=
  if fs.any (fun kv => endsS kv.1 ".tsx" || endsS kv.1 ".jsx") then
    if !(fs.any fun kv => endsS kv.1 ".html")
        || !(scont (flookD fs "index.html" "") "react"
          && scont (flookD fs "index.html" "") "babel") then
      upsert fs "index.html" (createIndexHtml "Generated App")
    else fs
  else fs

/-- The artifact extractor (`processCode`, lines 71-203): with a fence
marker present, process the matched blocks (or emit the placeholder
document when none parse); without one, classify the whole trimmed text as
a React module, an HTML document, or plain content to wrap. -/
def processCode (code : String) : List (String × String) :=
  if scont code "```" then
    let bs := extractBlocks code
    if bs.isEmpty then
      [("index.html", wrapInHtml "<!-- No valid code blocks found in the response -->")]
    else
      postHtml (postMain (bs.enum.foldl blockStep []))
  else
    let t := trimS code
    if scont t "import React" || scont t "export default function" then
      [("src/App.tsx", t), ("index.html", createIndexHtml "React App")]
    else if scont t "<!DOCTYPE html>" || scont t "<html" then
      [("index.html", t)]
    else
      [("index.html", wrapInHtml t)]

/-- JS `String.prototype.toLowerCase` (ASCII part). -/
def lowerS (s : String) : String := ⟨s.data.map Char.toLower⟩

/-- The manifest written by `createPackageJson` (lines 376-401): file name
`package.json` at the deployment root, content the serialized default
manifest for the given deployment name. -/
def createPackageJsonEntry (name : String) : String × String :=
  ("package.json",
    "\x7b\n  \"name\": \"" ++ lowerS name ++ "\",\n  \"version\": \"1.0.0\",\n  \"private\": true,\n  \"scripts\": \x7b\n    \"start\": \"serve -s build\",\n    \"build\": \"react-scripts build\",\n    \"dev\": \"react-scripts start\"\n  \x7d,\n  \"dependencies\": \x7b\n    \"react\": \"^18.2.0\",\n    \"react-dom\": \"^18.2.0\",\n    \"react-scripts\": \"5.0.1\"\n  \x7d,\n  \"browserslist\": \x7b\n    \"production\": [\n      \">0.2%\",\n      \"not dead\",\n      \"not op_mini all\"\n    ],\n    \"development\": [\n      \"last 1 chrome version\",\n      \"last 1 firefox version\",\n      \"last 1 safari version\"\n    ]\n  \x7d\n\x7d")

/-! ## Orchestrator lemmas -/

theorem collectSubmissions_nil_of_all_fail :
    ∀ calls : List (Except Unit Submission),
      (∀ c ∈ calls, ∃ e, c = .error e) → collectSubmissions calls = [] := by
  intro calls h
  induction calls with
  | nil => rfl
  | cons c0 rest ih =>
    obtain ⟨e, he⟩ := h c0 (List.mem_cons_self _ _)
    subst he
    exact ih fun c0 hc => h c0 (List.mem_cons_of_mem _ hc)

theorem collectSubmissions_append (l₁ l₂ : List (Except Unit Submission)) :
    collectSubmissions (l₁ ++ l₂) = collectSubmissions l₁ ++ collectSubmissions l₂ := by
  induction l₁ with
  | nil => rfl
  | cons c rest ih => cases c <;> simp [collectSubmissions, ih]

theorem mem_collectSubmissions (calls : List (Except Unit Submission)) (s : Submission) :
    s ∈ collectSubmissions calls ↔ .ok s ∈ calls := by
  induction calls with
  | nil => simp [collectSubmissions]
  | cons c rest ih => cases c <;> simp [collectSubmissions, ih]

theorem generate_ok_of_collect_ne_nil (a : Except Unit AnalysisReply)
    (calls : List (Except Unit Submission)) (j : Except Unit JudgeReply)
    (h : collectSubmissions calls ≠ []) :
    ∃ out, generate a calls j = .ok out ∧
      out.models = (collectSubmissions calls).map (·.model) ∧
      out.framework = (analyzeOutcome a).1 ∧
      out.requirements = (analyzeOutcome a).2 ∧
      out.score = 8.5 := by
  have hne : (collectSubmissions calls).isEmpty = false := by
    cases hc : collectSubmissions calls
    · exact absurd hc h
    · rfl
  unfold generate
  simp only [hne, Bool.false_eq_true, if_false]
  exact ⟨_, rfl, rfl, rfl, rfl, rfl⟩

theorem find?_model_some (subs : List Submission) (m : String) :
    subs.find? (fun s => some s.model = some m) = subs.find? (fun s => s.model = m) := by
  induction subs with
  | nil => rfl
  | cons t rest ih =>
    by_cases hm : t.model = m
    · simp [List.find?, hm]
    · simp [List.find?, hm, ih]

theorem find?_model_none (subs : List Submission) :
    subs.find? (fun s => some s.model = (none : Option String)) = none :=
  List.find?_eq_none.mpr fun x _ => by simp

theorem find?_false (subs : List Submission) :
    subs.find? (fun _ => false) = none :=
  List.find?_eq_none.mpr fun x _ => by simp

/-! ## Claim theorems for the orchestrator -/

/-- C1: if the set of enabled adapters is empty, or every enabled adapter's
call fails (each settled promise is an `.error`), `generate` throws the
no-submissions error and, by the shape of its `Except` result, returns no
result record at all. -/
theorem generate_noSubmissions_of_all_fail (a : Except Unit AnalysisReply)
    (j : Except Unit JudgeReply) (calls : List (Except Unit Submission))
    (h : ∀ c ∈ calls, ∃ e, c = .error e) :
    generate a calls j = .error .noSubmissions := by
  have hnil := collectSubmissions_nil_of_all_fail calls h
  simp [generate, hnil]

/-- Witness for `generate_noSubmissions_of_all_fail`: a run with a single
enabled adapter whose call failed. -/
theorem generate_noSubmissions_of_all_fail_witness :
    generate (.error ()) [.error ()] (.error ()) = .error .noSubmissions :=
  generate_noSubmissions_of_all_fail (.error ()) (.error ()) [.error ()]
    (fun _c hc => ⟨(), List.mem_singleton.mp hc⟩)

/-- C2: fault isolation of the fan-out.  A failed adapter call sitting
anywhere among the settled calls is excluded from the collected submissions
without changing them otherwise; any successful sibling's submission is
kept; the collected submissions are exactly the payloads of the successful
calls; and as soon as one call succeeded the run completes normally with
the submission list of the successful calls. -/
theorem generate_fault_isolation (a : Except Unit AnalysisReply)
    (j : Except Unit JudgeReply) (pre suf : List (Except Unit Submission))
    (e : Unit) (s : Submission) (h : .ok s ∈ pre ++ suf) :
    collectSubmissions (pre ++ .error e :: suf) = collectSubmissions (pre ++ suf) ∧
    s ∈ collectSubmissions (pre ++ .error e :: suf) ∧
    (∀ t, t ∈ collectSubmissions (pre ++ .error e :: suf) ↔ .ok t ∈ pre ++ suf) ∧
    ∃ out, generate a (pre ++ .error e :: suf) j = .ok out ∧
      out.models = (collectSubmissions (pre ++ suf)).map (·.model) := by
  have heq : collectSubmissions (pre ++ .error e :: suf) = collectSubmissions (pre ++ suf) := by
    rw [collectSubmissions_append, collectSubmissions_append]
    rfl
  have hmem : s ∈ collectSubmissions (pre ++ suf) := (mem_collectSubmissions _ s).mpr h
  have hne : collectSubmissions (pre ++ .error e :: suf) ≠ [] := by
    rw [heq]
    exact List.ne_nil_of_mem hmem
  refine ⟨heq, heq ▸ hmem, fun t => heq ▸ mem_collectSubmissions _ t, ?_⟩
  obtain ⟨out, hout, hmodels, -⟩ := generate_ok_of_collect_ne_nil a _ j hne
  exact ⟨out, hout, by rw [hmodels, heq]⟩

/-- Witness for `generate_fault_isolation`: one successful and one failed
adapter call. -/
theorem generate_fault_isolation_witness :
    collectSubmissions [.ok subA, .error ()] = [subA] :=
  (generate_fault_isolation (.error ()) (.error ()) [.ok subA] [] () subA
    (List.mem_cons_self _ _)).1

/-- C3: with exactly one collected submission, it is selected as the winner
and the judge outcome is never consulted: the run's result is the same for
every possible judge outcome. -/
theorem generate_single_submission (a : Except Unit AnalysisReply)
    (calls : List (Except Unit Submission)) (j j' : Except Unit JudgeReply)
    (s : Submission) (h : collectSubmissions calls = [s]) :
    generate a calls j = generate a calls j' ∧
    ∃ out, generate a calls j = .ok out ∧ out.model = s.model ∧ out.code = s.code := by
  constructor
  · simp [generate, h]
  · exact ⟨{ code := s.code, model := s.model, score := 8.5, models := [s.model],
             framework := (analyzeOutcome a).1, requirements := (analyzeOutcome a).2 },
           by simp [generate, h], rfl, rfl⟩

/-- Witness for `generate_single_submission`: a run with a single successful
call, compared under two different judge outcomes. -/
theorem generate_single_submission_witness :
    generate (.error ()) [.ok subA] (.error ()) =
      generate (.error ()) [.ok subA] (.ok judgeNoWinner) :=
  (generate_single_submission (.error ()) [.ok subA] (.error ()) (.ok judgeNoWinner)
    subA rfl).1

/-- C4 counterexample: with two submissions and a judge reply that omits the
`winner` field but whose first `scores` entry names the second submission's
model, `generate` selects the second submission, not the first one in
arrival order as the claim states. -/
theorem evaluator_missing_winner_cex :
    judgeNoWinner.winner = none ∧
    generate (.error ()) [.ok subA, .ok subB] (.ok judgeNoWinner) =
      .ok { code := subB.code, model := subB.model, score := 8.5,
            models := [subA.model, subB.model], framework := "react",
            requirements := ["basic functionality"] } ∧
    (collectSubmissions [.ok subA, .ok subB]).headI.model = subA.model ∧
    subB.model ≠ subA.model :=
  ⟨rfl, rfl, rfl, by decide⟩

/-- C4 amended: the evaluator's selection equals the spec-side rule
`selectSpec` — decode failure, a missing effective winner name, or a name
matching no submission all select the first submission in arrival order,
where the effective name is the `winner` field or, when that is absent or
empty, the model named by the first `scores` entry; and the failure is
recovered locally: whenever any submission was collected the run still
completes normally. -/
theorem evaluator_fallback_amended (subs : List Submission)
    (judge : Except Unit JudgeReply) (a : Except Unit AnalysisReply)
    (calls : List (Except Unit Submission)) (h : collectSubmissions calls ≠ []) :
    pickWinner subs judge = selectSpec subs judge ∧
    ∃ out, generate a calls judge = .ok out := by
  constructor
  · cases judge with
    | error e => rfl
    | ok r =>
      cases hw : r.winner with
      | none =>
        cases hs : r.scores with
        | none => simp [pickWinner, selectSpec, winningModelName, scoresFirstModel, hw, hs]
        | some es =>
          cases hm : es.head?.bind (·.model) with
          | none =>
            simp [pickWinner, selectSpec, winningModelName, scoresFirstModel, hw, hs, hm,
              find?_false]
          | some m =>
            simp [pickWinner, selectSpec, winningModelName, scoresFirstModel, hw, hs, hm,
              find?_model_some]
      | some w =>
        by_cases hw0 : w = ""
        · subst hw0
          cases hs : r.scores with
          | none => simp [pickWinner, selectSpec, winningModelName, scoresFirstModel, hw, hs]
          | some es =>
            cases hm : es.head?.bind (·.model) with
            | none =>
              simp [pickWinner, selectSpec, winningModelName, scoresFirstModel, hw, hs, hm,
                find?_false]
            | some m =>
              simp [pickWinner, selectSpec, winningModelName, scoresFirstModel, hw, hs, hm,
                find?_model_some]
        · simp [pickWinner, selectSpec, winningModelName, scoresFirstModel, hw, hw0,
            find?_model_some]
  · obtain ⟨out, hout, -⟩ := generate_ok_of_collect_ne_nil a calls judge h
    exact ⟨out, hout⟩

/-- Witness for `evaluator_fallback_amended`. -/
theorem evaluator_fallback_amended_witness :
    pickWinner [subA, subB] (.error ()) = selectSpec [subA, subB] (.error ()) ∧
    ∃ out, generate (.error ()) [.ok subA, .ok subB] (.error ()) = .ok out :=
  evaluator_fallback_amended [subA, subB] (.error ()) (.error ()) [.ok subA, .ok subB]
    (by decide)

/-- C5 counterexample: when the requirement-analysis call fails, the run
falls back to `framework = "react"`, not `framework = "generic UI"` as the
claim states. -/
theorem analyzer_fallback_cex :
    generate (.error ()) [.ok subA] (.error ()) =
      .ok { code := subA.code, model := subA.model, score := 8.5,
            models := [subA.model], framework := "react",
            requirements := ["basic functionality"] } ∧
    ("react" : String) ≠ "generic UI" :=
  ⟨rfl, by decide⟩

/-- C5 amended: when the judge call for requirement analysis fails or its
reply cannot be decoded, the analysis falls back to exactly
`framework = "react"` and `requirements = ["basic functionality"]`, and the
run continues (it completes normally whenever any submission was
collected). -/
theorem analyzer_fallback_defaults (e : Unit) (calls : List (Except Unit Submission))
    (j : Except Unit JudgeReply) (h : collectSubmissions calls ≠ []) :
    ∃ out, generate (.error e) calls j = .ok out ∧
      out.framework = "react" ∧ out.requirements = ["basic functionality"] := by
  obtain ⟨out, hout, -, hfr, hreq, -⟩ := generate_ok_of_collect_ne_nil (.error e) calls j h
  exact ⟨out, hout, hfr, hreq⟩

/-- Witness for `analyzer_fallback_defaults`. -/
theorem analyzer_fallback_defaults_witness :
    ∃ out, generate (.error ()) [.ok subA] (.error ()) = .ok out ∧
      out.framework = "react" ∧ out.requirements = ["basic functionality"] :=
  analyzer_fallback_defaults () [.ok subA] (.error ()) (by decide)

/-- C10: every normal return of `generate` carries the hard-coded score
`8.5` (grok-chat.ts line 548), regardless of the judge outcome, of the
number of submissions, and of any `winnerScore` in the judge reply. -/
theorem generate_score_constant (a : Except Unit AnalysisReply)
    (calls : List (Except Unit Submission)) (j : Except Unit JudgeReply)
    (out : GenOutput) (h : generate a calls j = .ok out) : out.score = 8.5 := by
  simp only [generate] at h
  split at h
  · cases h
  · cases h
    rfl

/-- Witness for `generate_score_constant`. -/
theorem generate_score_constant_witness :
    ({ code := subA.code, model := subA.model, score := 8.5,
       models := [subA.model], framework := "react",
       requirements := ["basic functionality"] } : GenOutput).score = 8.5 :=
  generate_score_constant (.error ()) [.ok subA] (.error ()) _ rfl

/-! ## Basic lemmas about the string primitives and the file map -/

theorem sdata_append (a b : String) : (a ++ b).data = a.data ++ b.data := rfl

theorem isPre_self (p : List Char) : isPre p p = true := by
  induction p with
  | nil => rfl
  | cons c cs ih => simp [isPre, ih]

theorem isPre_append_of_isPre (p s t : List Char) (h : isPre p s = true) :
    isPre p (s ++ t) = true := by
  induction p generalizing s with
  | nil => rfl
  | cons c cs ih =>
    cases s with
    | nil => cases h
    | cons b bs =>
      simp only [isPre, Bool.and_eq_true] at h
      simp [isPre, h.1, ih bs h.2]

theorem hasSub_of_isPre (p s : List Char) (h : isPre p s = true) : hasSub p s = true := by
  cases s with
  | nil => exact h
  | cons c cs => simp [hasSub, h]

theorem hasSub_append_left (p a b : List Char) (h : hasSub p a = true) :
    hasSub p (a ++ b) = true := by
  induction a with
  | nil =>
    simp only [hasSub] at h
    cases p with
    | nil => exact hasSub_of_isPre _ _ rfl
    | cons c cs => cases h
  | cons c cs ih =>
    simp only [hasSub, Bool.or_eq_true] at h
    rcases h with h | h
    · have hp := isPre_append_of_isPre p (c :: cs) b h
      simp only [List.cons_append] at hp
      simp [hasSub, hp]
    · simp [hasSub, ih h]

theorem hasSub_append_right (p a b : List Char) (h : hasSub p b = true) :
    hasSub p (a ++ b) = true := by
  induction a with
  | nil => exact h
  | cons c cs ih => simp [hasSub, ih]

theorem scont_append_left (a b p : String) (h : scont a p = true) :
    scont (a ++ b) p = true := hasSub_append_left _ _ _ h

theorem scont_append_right (a b p : String) (h : scont b p = true) :
    scont (a ++ b) p = true := hasSub_append_right _ _ _ h

theorem scont_refl (s : String) : scont s s = true :=
  hasSub_of_isPre _ _ (isPre_self s.data)

theorem flook_upsert_self (fs : List (String × String)) (k v : String) :
    flook (upsert fs k v) k = some v := by
  induction fs with
  | nil => simp [upsert, flook]
  | cons p rest ih =>
    obtain ⟨p1, p2⟩ := p
    by_cases hk : p1 = k
    · simp [upsert, hk, flook]
    · simp [upsert, hk, flook, ih]

theorem flook_upsert_ne (fs : List (String × String)) (k k' v : String) (h : k' ≠ k) :
    flook (upsert fs k v) k' = flook fs k' := by
  have h1 : ¬ (k = k') := fun he => h he.symm
  induction fs with
  | nil => simp [upsert, flook, h1]
  | cons p rest ih =>
    obtain ⟨p1, p2⟩ := p
    by_cases hk : p1 = k
    · subst hk
      simp [upsert, flook, h1]
    · simp only [upsert, hk, if_false]
      by_cases hk' : p1 = k'
      · simp [flook, hk']
      · simp [flook, hk', ih]

theorem mem_upsert (fs : List (String × String)) (k v : String) (p : String × String)
    (h : p ∈ upsert fs k v) : p = (k, v) ∨ p ∈ fs := by
  induction fs with
  | nil =>
    simp [upsert] at h
    exact Or.inl h
  | cons q rest ih =>
    obtain ⟨q1, q2⟩ := q
    by_cases hk : q1 = k
    · simp only [upsert, hk, if_true] at h
      rcases List.mem_cons.mp h with h | h
      · exact Or.inl h
      · exact Or.inr (List.mem_cons_of_mem _ h)
    · simp only [upsert, hk, if_false] at h
      rcases List.mem_cons.mp h with h | h
      · exact Or.inr (h ▸ List.mem_cons_self _ _)
      · rcases ih h with h | h
        · exact Or.inl h
        · exact Or.inr (List.mem_cons_of_mem _ h)

theorem keys_upsert (fs : List (String × String)) (k v : String) :
    (upsert fs k v).map Prod.fst =
      if k ∈ fs.map Prod.fst then fs.map Prod.fst else fs.map Prod.fst ++ [k] := by
  induction fs with
  | nil => simp [upsert]
  | cons q rest ih =>
    obtain ⟨q1, q2⟩ := q
    by_cases hk : q1 = k
    · simp [upsert, hk]
    · have h2 : ¬ (k = q1) := fun he => hk he.symm
      simp only [upsert, hk, if_false, List.map_cons, ih]
      by_cases hm : k ∈ rest.map Prod.fst
      · simp [hm, h2]
      · simp [hm, h2]

theorem nodup_keys_upsert (fs : List (String × String)) (k v : String)
    (h : (fs.map Prod.fst).Nodup) : ((upsert fs k v).map Prod.fst).Nodup := by
  rw [keys_upsert]
  by_cases hm : k ∈ fs.map Prod.fst
  · simpa [hm] using h
  · simp only [hm, if_false]
    refine List.Nodup.append h (List.nodup_singleton k) ?_
    intro a ha hak
    rw [List.mem_singleton] at hak
    exact hm (hak ▸ ha)

theorem flook_isSome_iff_mem (fs : List (String × String)) (k : String) :
    (flook fs k).isSome = true ↔ k ∈ fs.map Prod.fst := by
  induction fs with
  | nil => simp [flook]
  | cons q rest ih =>
    obtain ⟨q1, q2⟩ := q
    by_cases hk : q1 = k
    · subst hk
      simp [flook]
    · have h2 : ¬ (k = q1) := fun he => hk he.symm
      simp [flook, hk, h2, ih]

theorem flook_mem (fs : List (String × String)) (k v : String) (h : flook fs k = some v) :
    (k, v) ∈ fs := by
  induction fs with
  | nil => cases h
  | cons q rest ih =>
    obtain ⟨q1, q2⟩ := q
    by_cases hk : q1 = k
    · subst hk
      simp only [flook, if_pos, Option.some.injEq] at h
      subst h
      exact List.mem_cons_self _ _
    · simp only [flook, hk, if_false] at h
      exact List.mem_cons_of_mem _ (ih h)

theorem count_eq_one_of_nodup_mem (l : List String) (a : String)
    (hn : l.Nodup) (hm : a ∈ l) : l.count a = 1 :=
  le_antisymm (List.nodup_iff_count_le_one.mp hn a) (List.count_pos_iff.mpr hm)

/-! ## Derived notions and concrete inputs for the extractor claims -/

/-- Test for a merge action. -/
def isMergeB : BAction → Bool
  | .merge _ => true
  | _ => false

/-- The per-block actions of a raw text, in detection order. -/
def actsOf (code : String) : List BAction :=
  (extractBlocks code).enum.map fun ib => classifyBlock ib.1 ib.2

/-- Number of application-module blocks (blocks merged into `App.tsx`). -/
def numMerges (code : String) : Nat := (actsOf code).countP isMergeB

/-- Accumulate the merged `App.tsx` content of a list of block actions. -/
def mergeFoldA (s : String) (acts : List BAction) : String :=
  acts.foldl (fun acc a =>
    match a with
    | .merge t => acc ++ t ++ "\n\n"
    | _ => acc) s

/-- The transformed module-block contents of a raw text, concatenated in
detection order with the blank-line separators the merge step inserts. -/
def mergedOf (code : String) : String := mergeFoldA "" (actsOf code)

/-- Raw text whose only block is an arrow-function component without a
default export: the transform appends no `window.App` binding. -/
def exC6 : String :=
  "```\nconst App = () => React.createElement(\x27div\x27, null, \x27hi there folks\x27);\n```"

/-- Raw text without a fence marker that is detected as a React module. -/
def exC7 : String :=
  "import React from \x27react\x27;\nexport default function App() \x7b return null; \x7d"

/-- Raw text containing a fence marker but no complete fenced block. -/
def exC8 : String := "hello ``` world"

/-- Plain raw text with no fence marker, doctype or module signature. -/
def exPlain : String := "just a few plain words"

/-- Raw text with two fenced application-module blocks. -/
def exC9 : String :=
  "```\nfunction App() \x7b return null; \x7d\nexport default App;\n```\ntext\n```\nfunction Bar() \x7b return null; \x7d\n```"

/-! ## Lemmas about the per-block step and the two post passes -/

theorem classify_save_not_module (i : Nat) (b : Block) (n c : String)
    (h : classifyBlock i b = .save n c) : isModuleName n = false := by
  simp only [classifyBlock] at h
  split at h
  · cases h
  · split at h
    · cases h
    · rename_i name _
      split at h
      · split at h <;> cases h
      · rename_i hmod
        cases h
        cases hb : isModuleName n
        · rfl
        · exact absurd hb hmod

theorem classify_save_ne_app (i : Nat) (b : Block) (n c : String)
    (h : classifyBlock i b = .save n c) : n ≠ "App.tsx" := by
  intro he
  have h1 := classify_save_not_module i b n c h
  rw [he] at h1
  have h2 : isModuleName "App.tsx" = true := by decide
  rw [h1] at h2
  cases h2

theorem blockStep_keysOK (fs : List (String × String)) (ib : Nat × Block)
    (h : ∀ p ∈ fs, isModuleName p.1 = true → p.1 = "App.tsx") :
    ∀ p ∈ blockStep fs ib, isModuleName p.1 = true → p.1 = "App.tsx" := by
  intro p hp hm
  unfold blockStep applyAction at hp
  cases hact : classifyBlock ib.1 ib.2 with
  | drop =>
    rw [hact] at hp
    exact h p hp hm
  | merge t =>
    rw [hact] at hp
    rcases mem_upsert _ _ _ _ hp with he | he
    · rw [he]
    · exact h p he hm
  | save n c =>
    rw [hact] at hp
    rcases mem_upsert _ _ _ _ hp with he | he
    · exfalso
      have hnm := classify_save_not_module ib.1 ib.2 n c hact
      rw [he] at hm
      simp only at hm
      rw [hnm] at hm
      cases hm
    · exact h p he hm

theorem blockStep_nodup (fs : List (String × String)) (ib : Nat × Block)
    (h : (fs.map Prod.fst).Nodup) : ((blockStep fs ib).map Prod.fst).Nodup := by
  unfold blockStep applyAction
  cases hact : classifyBlock ib.1 ib.2 with
  | drop => exact h
  | merge t => exact nodup_keys_upsert _ _ _ h
  | save n c => exact nodup_keys_upsert _ _ _ h

theorem blockStep_app_isSome (fs : List (String × String)) (ib : Nat × Block)
    (h : (flook fs "App.tsx").isSome = true) :
    (flook (blockStep fs ib) "App.tsx").isSome = true := by
  unfold blockStep applyAction
  cases hact : classifyBlock ib.1 ib.2 with
  | drop => exact h
  | merge t => simp [flook_upsert_self]
  | save n c =>
    rw [flook_upsert_ne _ _ _ _ (classify_save_ne_app ib.1 ib.2 n c hact).symm]
    exact h

theorem blockStep_app_of_merge (fs : List (String × String)) (ib : Nat × Block) (t : String)
    (h : classifyBlock ib.1 ib.2 = .merge t) :
    (flook (blockStep fs ib) "App.tsx").isSome = true := by
  unfold blockStep applyAction
  rw [h]
  simp [flook_upsert_self]

theorem blockStep_content (fs : List (String × String)) (ib : Nat × Block) :
    flookD (blockStep fs ib) "App.tsx" "" =
      (match classifyBlock ib.1 ib.2 with
        | .merge t => flookD fs "App.tsx" "" ++ t ++ "\n\n"
        | _ => flookD fs "App.tsx" "") := by
  unfold blockStep applyAction
  cases hact : classifyBlock ib.1 ib.2 with
  | drop => rfl
  | merge t => simp [flookD, flook_upsert_self]
  | save n c =>
    simp only [flookD]
    rw [flook_upsert_ne _ _ _ _ (classify_save_ne_app ib.1 ib.2 n c hact).symm]

theorem fold_keysOK (ebs : List (Nat × Block)) (fs : List (String × String))
    (h1 : ∀ p ∈ fs, isModuleName p.1 = true → p.1 = "App.tsx")
    (h2 : (fs.map Prod.fst).Nodup) :
    (∀ p ∈ ebs.foldl blockStep fs, isModuleName p.1 = true → p.1 = "App.tsx") ∧
    ((ebs.foldl blockStep fs).map Prod.fst).Nodup := by
  induction ebs generalizing fs with
  | nil => exact ⟨h1, h2⟩
  | cons ib rest ih =>
    simp only [List.foldl_cons]
    exact ih _ (blockStep_keysOK fs ib h1) (blockStep_nodup fs ib h2)

theorem fold_app_preserve (ebs : List (Nat × Block)) (fs : List (String × String))
    (h : (flook fs "App.tsx").isSome = true) :
    (flook (ebs.foldl blockStep fs) "App.tsx").isSome = true := by
  induction ebs generalizing fs with
  | nil => exact h
  | cons ib rest ih =>
    simp only [List.foldl_cons]
    exact ih _ (blockStep_app_isSome fs ib h)

theorem fold_app_isSome (ebs : List (Nat × Block)) (fs : List (String × String))
    (h : ∃ ib ∈ ebs, ∃ t, classifyBlock ib.1 ib.2 = .merge t) :
    (flook (ebs.foldl blockStep fs) "App.tsx").isSome = true := by
  induction ebs generalizing fs with
  | nil => obtain ⟨ib, hib, -⟩ := h; cases hib
  | cons ib rest ih =>
    simp only [List.foldl_cons]
    obtain ⟨jb, hjb, t, ht⟩ := h
    rcases List.mem_cons.mp hjb with he | he
    · subst he
      exact fold_app_preserve rest _ (blockStep_app_of_merge fs jb t ht)
    · exact ih _ ⟨jb, he, t, ht⟩

theorem fold_content (ebs : List (Nat × Block)) (fs : List (String × String)) :
    flookD (ebs.foldl blockStep fs) "App.tsx" "" =
      mergeFoldA (flookD fs "App.tsx" "")
        (ebs.map fun ib => classifyBlock ib.1 ib.2) := by
  induction ebs generalizing fs with
  | nil => rfl
  | cons ib rest ih =>
    simp only [List.foldl_cons, List.map_cons, mergeFoldA, List.foldl_cons]
    rw [ih]
    have hc := blockStep_content fs ib
    cases hact : classifyBlock ib.1 ib.2 with
    | drop => rw [hact] at hc; simp only [mergeFoldA]; rw [hc]
    | merge t => rw [hact] at hc; simp only [mergeFoldA]; rw [hc]
    | save n c => rw [hact] at hc; simp only [mergeFoldA]; rw [hc]

theorem postMain_shape (fs : List (String × String)) :
    postMain fs = fs ∨ ∃ v, postMain fs = upsert fs "App.tsx" v := by
  unfold postMain
  cases flook fs "App.tsx" with
  | none => exact Or.inl rfl
  | some app =>
    by_cases ha : app = ""
    · simp only [ha, if_pos rfl]
      exact Or.inl rfl
    · simp only [ha, if_neg ha]
      cases matchRE reMainComponent app with
      | none => exact Or.inl rfl
      | some cp =>
        by_cases hw : scont app "window.App"
        · simp [hw]
        · simp [hw]

theorem postHtml_shape (fs : List (String × String)) :
    postHtml fs = fs ∨ postHtml fs = upsert fs "index.html" (createIndexHtml "Generated App") := by
  unfold postHtml
  by_cases h1 : (fs.any fun kv => endsS kv.1 ".tsx" || endsS kv.1 ".jsx") = true
  · rw [if_pos h1]
    by_cases h2 : (!(fs.any fun kv => endsS kv.1 ".html")
        || !(scont (flookD fs "index.html" "") "react"
          && scont (flookD fs "index.html" "") "babel")) = true
    · rw [if_pos h2]
      exact Or.inr rfl
    · rw [if_neg h2]
      exact Or.inl rfl
  · rw [if_neg h1]
    exact Or.inl rfl

theorem postMain_app_lookup (fs : List (String × String)) (app : String)
    (h : flook fs "App.tsx" = some app) :
    flook (postMain fs) "App.tsx" = some app ∨
    ∃ n, flook (postMain fs) "App.tsx" =
      some (app ++ "\nwindow.App = " ++ n ++ ";\n") := by
  unfold postMain
  rw [h]
  by_cases ha : app = ""
  · simp only [ha, if_pos rfl]
    exact Or.inl (ha ▸ h)
  · simp only [if_neg ha]
    cases matchRE reMainComponent app with
    | none => exact Or.inl h
    | some cp =>
      by_cases hw : scont app "window.App"
      · simp only [hw, if_pos rfl]
        exact Or.inl h
      · simp only [hw, Bool.false_eq_true, if_neg, if_false]
        exact Or.inr ⟨capGet cp 1, flook_upsert_self _ _ _⟩

theorem postHtml_app_lookup (fs : List (String × String)) :
    flook (postHtml fs) "App.tsx" = flook fs "App.tsx" := by
  rcases postHtml_shape fs with h | h
  · rw [h]
  · rw [h, flook_upsert_ne _ _ _ _ (by decide)]

theorem postMain_index_lookup (fs : List (String × String)) :
    flook (postMain fs) "index.html" = flook fs "index.html" := by
  rcases postMain_shape fs with h | h
  · rw [h]
  · obtain ⟨v, hv⟩ := h
    rw [hv, flook_upsert_ne _ _ _ _ (by decide)]

theorem postHtml_index_isSome (fs : List (String × String))
    (h : (flook fs "App.tsx").isSome = true) :
    (flook (postHtml fs) "index.html").isSome = true := by
  have hmem : "App.tsx" ∈ fs.map Prod.fst := (flook_isSome_iff_mem fs _).mp h
  obtain ⟨p, hp, hp1⟩ := List.mem_map.mp hmem
  have hra : fs.any (fun kv => endsS kv.1 ".tsx" || endsS kv.1 ".jsx") = true :=
    List.any_eq_true.mpr ⟨p, hp, by rw [hp1]; decide⟩
  unfold postHtml
  rw [if_pos hra]
  by_cases h2 : (!(fs.any fun kv => endsS kv.1 ".html")
      || !(scont (flookD fs "index.html" "") "react"
        && scont (flookD fs "index.html" "") "babel")) = true
  · rw [if_pos h2]
    simp [flook_upsert_self]
  · rw [if_neg h2]
    simp only [Bool.or_eq_true, Bool.not_eq_true', not_or, Bool.not_eq_false] at h2
    cases hfl : flook fs "index.html" with
    | some v => simp [hfl]
    | none =>
      exfalso
      have hcur : flookD fs "index.html" "" = "" := by simp [flookD, hfl]
      rw [hcur] at h2
      have : scont "" "react" = false := by decide
      rw [this] at h2
      simp at h2

theorem bindFn_binding (t : String)
    (h : (matchRE reFnName (bindFn t)).isSome = true) :
    scont (bindFn t) "window.App" = true := by
  unfold bindFn at h ⊢
  cases hm : matchRE reFnName t with
  | none =>
    rw [hm] at h
    exact absurd h (by simp [hm])
  | some cp =>
    dsimp only at h ⊢
    by_cases hsc : scont t "window.App" = true
    · rw [if_pos hsc]
      exact hsc
    · rw [if_neg hsc]
      have h1 : scont ("\nwindow.App = " : String) "window.App" = true := by decide
      have h2 := scont_append_right t "\nwindow.App = " "window.App" h1
      have h3 := scont_append_left (t ++ "\nwindow.App = ") (capGet cp 1) "window.App" h2
      exact scont_append_left _ ";" "window.App" h3

theorem transformFinish_binding (t : String)
    (h : (matchRE reFnName (transformFinish t)).isSome = true) :
    scont (transformFinish t) "window.App" = true := by
  unfold transformFinish at h ⊢
  by_cases h1 : (t.length < 20 || (!scont t "function" && !scont t "=>")) = true
  · rw [if_pos h1]
    decide
  · rw [if_neg h1] at h ⊢
    by_cases h2 : scont t "export default" = true
    · rw [if_pos h2] at h ⊢
      exact bindFn_binding _ h
    · rw [if_neg h2] at h ⊢
      exact bindFn_binding _ h

theorem processCode_app_index (code : String)
    (h : (flook (processCode code) "App.tsx").isSome = true) :
    (flook (processCode code) "index.html").isSome = true := by
  unfold processCode at h ⊢
  by_cases hf : scont code "```" = true
  · rw [if_pos hf] at h ⊢
    by_cases hbs : (extractBlocks code).isEmpty = true
    · rw [if_pos hbs] at h
      rw [show flook [("index.html",
        wrapInHtml "<!-- No valid code blocks found in the response -->")] "App.tsx" = none
        from rfl] at h
      cases h
    · rw [if_neg hbs] at h ⊢
      have happ : (flook (postMain ((extractBlocks code).enum.foldl blockStep []))
          "App.tsx").isSome = true := by
        rw [← postHtml_app_lookup]
        exact h
      rw [show (flook (postHtml (postMain ((extractBlocks code).enum.foldl blockStep [])))
        "index.html").isSome = true ↔ _ from Iff.rfl]
      exact postHtml_index_isSome _ happ
  · rw [if_neg hf] at h ⊢
    by_cases hr : (scont (trimS code) "import React"
        || scont (trimS code) "export default function") = true
    · rw [if_pos hr] at h
      rw [show flook [("src/App.tsx", trimS code),
        ("index.html", createIndexHtml "React App")] "App.tsx" = none from rfl] at h
      cases h
    · rw [if_neg hr] at h
      by_cases hh : (scont (trimS code) "<!DOCTYPE html>"
          || scont (trimS code) "<html") = true
      · rw [if_pos hh] at h
        rw [show flook [("index.html", trimS code)] "App.tsx" = none from rfl] at h
        cases h
      · rw [if_neg hh] at h
        rw [show flook [("index.html", wrapInHtml (trimS code))] "App.tsx" = none
          from rfl] at h
        cases h

theorem postMain_keysOK (fs : List (String × String))
    (h : ∀ p ∈ fs, isModuleName p.1 = true → p.1 = "App.tsx") :
    ∀ p ∈ postMain fs, isModuleName p.1 = true → p.1 = "App.tsx" := by
  rcases postMain_shape fs with hs | ⟨v, hs⟩
  · rw [hs]; exact h
  · rw [hs]
    intro p hp hm
    rcases mem_upsert _ _ _ _ hp with he | he
    · rw [he]
    · exact h p he hm

theorem postHtml_keysOK (fs : List (String × String))
    (h : ∀ p ∈ fs, isModuleName p.1 = true → p.1 = "App.tsx") :
    ∀ p ∈ postHtml fs, isModuleName p.1 = true → p.1 = "App.tsx" := by
  rcases postHtml_shape fs with hs | hs
  · rw [hs]; exact h
  · rw [hs]
    intro p hp hm
    rcases mem_upsert _ _ _ _ hp with he | he
    · exfalso
      rw [he] at hm
      simp only at hm
      exact absurd hm (by decide)
    · exact h p he hm

theorem postMain_nodup (fs : List (String × String))
    (h : (fs.map Prod.fst).Nodup) : ((postMain fs).map Prod.fst).Nodup := by
  rcases postMain_shape fs with hs | ⟨v, hs⟩
  · rw [hs]; exact h
  · rw [hs]; exact nodup_keys_upsert _ _ _ h

theorem postHtml_nodup (fs : List (String × String))
    (h : (fs.map Prod.fst).Nodup) : ((postHtml fs).map Prod.fst).Nodup := by
  rcases postHtml_shape fs with hs | hs
  · rw [hs]; exact h
  · rw [hs]; exact nodup_keys_upsert _ _ _ h

theorem postMain_app_isSome (fs : List (String × String))
    (h : (flook fs "App.tsx").isSome = true) :
    (flook (postMain fs) "App.tsx").isSome = true := by
  obtain ⟨app, happ⟩ := Option.isSome_iff_exists.mp h
  rcases postMain_app_lookup fs app happ with hl | ⟨n, hl⟩ <;> simp [hl]

/-! ## Claim theorems for the artifact extractor -/

/-- C6 counterexample: an arrow-function component block with no default
export is merged into `App.tsx`, yet the transform appends no binding at
all — the resulting module never mentions `window.App`, while the
synthesized entry document references `window.App`.  The entry document
thus references a binding the module leaves undefined. -/
theorem extractor_unbound_module_cex :
    (flook (processCode exC6) "App.tsx").isSome = true ∧
    scont (flookD (processCode exC6) "App.tsx" "") "window.App" = false ∧
    scont (flookD (processCode exC6) "index.html" "") "window.App" = true :=
  ⟨by decide, by decide, by decide⟩

/-- C6 amended: whenever the extractor produces an `App.tsx` module file the
file set also holds an entry document under `index.html`; any binding the
transform appends uses the fixed identifier `window.App` — in particular a
transformed module in which a function declaration is found does mention
`window.App` — and the synthesized entry document references exactly
`window.App`; but a module whose transformed text has neither a declared
function nor a default export (an arrow-function-only component) binds
nothing, and the entry document then falls back to its built-in loading
component. -/
theorem extractor_global_binding_amended (code c : String)
    (h : (flook (processCode code) "App.tsx").isSome = true) :
    (flook (processCode code) "index.html").isSome = true ∧
    ((matchRE reFnName (transformForBrowser c)).isSome = true →
      scont (transformForBrowser c) "window.App" = true) ∧
    scont (createIndexHtml "Generated App") "window.App" = true :=
  ⟨processCode_app_index code h,
   fun hm => by
     unfold transformForBrowser at hm ⊢
     exact transformFinish_binding _ hm,
   by decide⟩

/-- Witness for `extractor_global_binding_amended`. -/
theorem extractor_global_binding_amended_witness :
    (flook (processCode exC9) "App.tsx").isSome = true ∧
    scont (transformForBrowser "function Bar() \x7b return null; \x7d") "window.App" = true :=
  ⟨by decide,
   (extractor_global_binding_amended exC9 "function Bar() \x7b return null; \x7d"
      (by decide)).2.1 (by decide)⟩

/-- C7 counterexample: raw text without a fence marker that carries a React
module signature is stored as `src/App.tsx` — an application-module file
that is not named `App.tsx` at the bundle root. -/
theorem bundle_naming_src_app_cex :
    (flook (processCode exC7) "src/App.tsx").isSome = true ∧
    isModuleName "src/App.tsx" = true ∧
    flook (processCode exC7) "App.tsx" = none :=
  ⟨by decide, by decide, by decide⟩

/-- C7 amended: every module-named file (`.tsx`/`.jsx`) of the produced file
set is `App.tsx` at bundle root, except in the no-fence-marker path where
the React module is named `src/App.tsx`; whenever the merged `App.tsx`
module exists, the entry document is present under `index.html` at bundle
root; and the synthesized manifest is always named `package.json` at the
deployment root. -/
theorem bundle_naming_amended (code k v nm : String)
    (hmem : (k, v) ∈ processCode code) :
    (isModuleName k = true →
      (k = "App.tsx" ∨ (scont code "```" = false ∧ k = "src/App.tsx"))) ∧
    ((flook (processCode code) "App.tsx").isSome = true →
      (flook (processCode code) "index.html").isSome = true) ∧
    (createPackageJsonEntry nm).1 = "package.json" := by
  refine ⟨?_, processCode_app_index code, rfl⟩
  intro hmod
  unfold processCode at hmem
  by_cases hf : scont code "```" = true
  · rw [if_pos hf] at hmem
    by_cases hbs : (extractBlocks code).isEmpty = true
    · rw [if_pos hbs] at hmem
      have hk : k = "index.html" := congrArg Prod.fst (List.mem_singleton.mp hmem)
      rw [hk] at hmod
      exact absurd hmod (by decide)
    · rw [if_neg hbs] at hmem
      left
      have hOK := fold_keysOK (extractBlocks code).enum []
        (by intro p hp; cases hp) List.nodup_nil
      exact postHtml_keysOK _ (postMain_keysOK _ hOK.1) (k, v) hmem hmod
  · have hf' : scont code "```" = false := by
      cases hcb : scont code "```"
      · rfl
      · exact absurd hcb hf
    rw [if_neg hf] at hmem
    by_cases hr : (scont (trimS code) "import React"
        || scont (trimS code) "export default function") = true
    · rw [if_pos hr] at hmem
      rcases List.mem_cons.mp hmem with he | he
      · exact Or.inr ⟨hf', congrArg Prod.fst he⟩
      · have hk : k = "index.html" := congrArg Prod.fst (List.mem_singleton.mp he)
        rw [hk] at hmod
        exact absurd hmod (by decide)
    · rw [if_neg hr] at hmem
      by_cases hh : (scont (trimS code) "<!DOCTYPE html>"
          || scont (trimS code) "<html") = true
      · rw [if_pos hh] at hmem
        have hk : k = "index.html" := congrArg Prod.fst (List.mem_singleton.mp hmem)
        rw [hk] at hmod
        exact absurd hmod (by decide)
      · rw [if_neg hh] at hmem
        have hk : k = "index.html" := congrArg Prod.fst (List.mem_singleton.mp hmem)
        rw [hk] at hmod
        exact absurd hmod (by decide)

/-- Witness for `bundle_naming_amended`. -/
theorem bundle_naming_amended_witness :
    ("src/App.tsx" = "App.tsx" ∨
      (scont exC7 "```" = false ∧ "src/App.tsx" = "src/App.tsx")) :=
  (bundle_naming_amended exC7 "src/App.tsx" (trimS exC7) "app-demo"
    (by decide)).1 (by decide)

/-- C8 counterexample: the input `"hello ``` world"` contains the fence
marker but no complete fenced block; the extractor does not treat the text
as an implicit block — it emits a single entry document holding a fixed
placeholder comment, and the raw text (the word `hello`) is dropped. -/
theorem implicit_block_marker_cex :
    scont exC8 "```" = true ∧
    extractBlocks exC8 = [] ∧
    processCode exC8 =
      [("index.html", wrapInHtml "<!-- No valid code blocks found in the response -->")] ∧
    scont exC8 "hello" = true ∧
    scont (flookD (processCode exC8) "index.html" "") "hello" = false :=
  ⟨by decide, by decide, by decide, by decide, by decide⟩

/-- C8 amended: for raw text containing no fence marker at all and neither
a module signature nor a doctype, the file set is exactly one entry
document wrapping the trimmed raw text as visible page content (the wrapped
document contains the trimmed text verbatim). -/
theorem implicit_block_no_marker (code : String)
    (h0 : scont code "```" = false)
    (h1 : scont (trimS code) "import React" = false)
    (h2 : scont (trimS code) "export default function" = false)
    (h3 : scont (trimS code) "<!DOCTYPE html>" = false)
    (h4 : scont (trimS code) "<html" = false) :
    processCode code = [("index.html", wrapInHtml (trimS code))] ∧
    scont (wrapInHtml (trimS code)) (trimS code) = true := by
  constructor
  · unfold processCode
    rw [if_neg (by simp [h0]), if_neg (by simp [h1, h2]), if_neg (by simp [h3, h4])]
  · unfold wrapInHtml
    rw [if_neg (by simp [h4])]
    exact scont_append_left _ _ _ (scont_append_right _ _ _ (scont_refl (trimS code)))

/-- Witness for `implicit_block_no_marker`. -/
theorem implicit_block_no_marker_witness :
    processCode exPlain = [("index.html", wrapInHtml (trimS exPlain))] :=
  (implicit_block_no_marker exPlain (by decide) (by decide) (by decide) (by decide)
    (by decide)).1

/-- C9: when the raw text holds at least two application-module fenced
blocks, every module-named file of the produced set is the single merged
`App.tsx`, whose content is the concatenation of the transformed module
blocks in detection order (possibly followed by the appended `window.App`
binding line), and exactly one entry document `index.html` is produced. -/
theorem module_merging (code : String)
    (hfence : scont code "```" = true)
    (h2 : 2 ≤ numMerges code) :
    (∀ p ∈ processCode code, isModuleName p.1 = true → p.1 = "App.tsx") ∧
    (∃ app, flook (processCode code) "App.tsx" = some app ∧
      (app = mergedOf code ∨
       ∃ n, app = mergedOf code ++ "\nwindow.App = " ++ n ++ ";\n")) ∧
    ((processCode code).map Prod.fst).count "index.html" = 1 := by
  have hpos : 0 < (actsOf code).countP isMergeB := lt_of_lt_of_le (by norm_num) h2
  obtain ⟨a, hamem, hap⟩ := List.countP_pos_iff.mp hpos
  obtain ⟨ib, hib, hfa⟩ := List.mem_map.mp hamem
  have hmerge : ∃ jb ∈ (extractBlocks code).enum, ∃ t, classifyBlock jb.1 jb.2 = .merge t := by
    refine ⟨ib, hib, ?_⟩
    cases hact : classifyBlock ib.1 ib.2 with
    | drop => rw [← hfa, hact] at hap; cases hap
    | merge t => exact ⟨t, rfl⟩
    | save n c => rw [← hfa, hact] at hap; cases hap
  have hbs : (extractBlocks code).isEmpty ≠ true := by
    intro hemp
    rw [List.isEmpty_iff] at hemp
    rw [hemp] at hib
    cases hib
  have hpc : processCode code =
      postHtml (postMain ((extractBlocks code).enum.foldl blockStep [])) := by
    unfold processCode
    rw [if_pos hfence, if_neg hbs]
  have hF : (flook ((extractBlocks code).enum.foldl blockStep []) "App.tsx").isSome = true :=
    fold_app_isSome _ _ hmerge
  obtain ⟨app0, happ0⟩ := Option.isSome_iff_exists.mp hF
  have happ0v : app0 = mergedOf code := by
    have hc := fold_content (extractBlocks code).enum []
    rw [show flookD ([] : List (String × String)) "App.tsx" "" = "" from rfl] at hc
    rw [show flookD ((extractBlocks code).enum.foldl blockStep []) "App.tsx" ""
      = (flook ((extractBlocks code).enum.foldl blockStep []) "App.tsx").getD "" from rfl,
      happ0] at hc
    exact hc
  have hOK := fold_keysOK (extractBlocks code).enum [] (by intro p hp; cases hp)
    List.nodup_nil
  refine ⟨?_, ?_, ?_⟩
  · rw [hpc]
    exact postHtml_keysOK _ (postMain_keysOK _ hOK.1)
  · rw [hpc]
    rcases postMain_app_lookup _ app0 happ0 with hl | ⟨n, hl⟩
    · exact ⟨app0, by rw [postHtml_app_lookup]; exact hl, Or.inl happ0v⟩
    · exact ⟨app0 ++ "\nwindow.App = " ++ n ++ ";\n",
        by rw [postHtml_app_lookup]; exact hl,
        Or.inr ⟨n, by rw [happ0v]⟩⟩
  · rw [hpc]
    have hnodup := postHtml_nodup _ (postMain_nodup _ hOK.2)
    have hidx : (flook (postHtml (postMain
        ((extractBlocks code).enum.foldl blockStep []))) "index.html").isSome = true :=
      postHtml_index_isSome _ (postMain_app_isSome _ hF)
    exact count_eq_one_of_nodup_mem _ _ hnodup ((flook_isSome_iff_mem _ _).mp hidx)

/-- Witness for `module_merging`. -/
theorem module_merging_witness :
    scont exC9 "```" = true ∧ 2 ≤ numMerges exC9 ∧
    ((processCode exC9).map Prod.fst).count "index.html" = 1 :=
  ⟨by decide, by decide, (module_merging exC9 (by decide) (by decide)).2.2⟩
